import Mathlib

/-!
Shallow embedding of `aioyoyo/cmdhandler.py` (henry232323/oyoyo-asyncio).

Python objects that take part in command dispatch are modelled by the
inductive `Obj`: a node records whether it is a `CommandHandler` instance
(`isHandler`), whether it carries the `protected` attribute set by the
`protected` decorator (`prot`), whether it is a method/function in the sense
of `inspect.ismethod`/`inspect.isfunction` (`isCallable`), whether awaiting
it raises an exception (`fails`, abstracting the body of a command), and its
named attributes (`attrs`, the reflection surface seen by `getattr`).

Python string primitives used by the source (`str.split('.')`,
`str.split(' ', 1)`, `str.strip()`, `str.startswith`, slicing
`msg[n:]`) are embedded character-by-character over `String.data`, matching
CPython semantics on the relevant inputs.
-/

namespace Aioyoyo

/-- A Python object as seen by the dispatcher: `CommandHandler`-ness,
the `protected` marker, callability, whether invoking it raises, and its
attribute dictionary. -/
inductive Obj where
  | mk (isHandler : Bool) (prot : Bool) (isCallable : Bool) (fails : Bool)
       (attrs : List (String × Obj))

def Obj.isHandler : Obj → Bool
  | .mk h _ _ _ _ => h

def Obj.prot : Obj → Bool
  | .mk _ p _ _ _ => p

def Obj.isCallable : Obj → Bool
  | .mk _ _ c _ _ => c

def Obj.fails : Obj → Bool
  | .mk _ _ _ f _ => f

def Obj.attrs : Obj → List (String × Obj)
  | .mk _ _ _ _ a => a

/-- Model of `getattr(p, name)` over the modelled attribute dictionary; `none` models
the `AttributeError` case. -/
def getattrOpt (p : Obj) (name : String) : Option Obj :=
  p.attrs.lookup name

/-- Python `s.split('.')`: split on every dot, empty string yields `[""]`. -/
def splitDotAux : List Char → List Char → List String
  | [], acc => [⟨acc.reverse⟩]
  | c :: cs, acc =>
    if c = '.' then ⟨acc.reverse⟩ :: splitDotAux cs []
    else splitDotAux cs (c :: acc)

def pySplitDot (s : String) : List String :=
  splitDotAux s.data []

/-- Helper for Python `s.split(' ', 1)`: break a character list at the first
space, if any. -/
def breakAtSpace : List Char → Option (List Char × List Char)
  | [] => none
  | c :: cs =>
    if c = ' ' then some ([], cs)
    else
      match breakAtSpace cs with
      | none => none
      | some (a, b) => some (c :: a, b)

/-- Python `s.split(' ', 1)`: at most one split, at the first space. -/
def pySplitMax1 (s : String) : List String :=
  match breakAtSpace s.data with
  | none => [s]
  | some (a, b) => [⟨a⟩, ⟨b⟩]

/-- Python `s.strip()`: drop whitespace from both ends. -/
def pyStrip (s : String) : String :=
  ⟨((s.data.dropWhile Char.isWhitespace).reverse.dropWhile Char.isWhitespace).reverse⟩

/-- Python `s.startswith(t)`. -/
def pyStartsWith (s t : String) : Bool :=
  t.data.isPrefixOf s.data

/-- Python character slicing `s[n:]`. -/
def pyDrop (s : String) (n : Nat) : String :=
  ⟨s.data.drop n⟩

/-- Outcome of `CommandHandler.get`. `ok` is a normal return;
`noSuchCommand`/`protectedCommand` are the raised `NoSuchCommandError` /
`ProtectedCommandError`, each carrying the path list it was constructed
with; `nameError` is the unguarded `NameError` hit when the loop never ran
and `return f` reads an unbound local. -/
inductive GetResult where
  | ok (v : Obj)
  | noSuchCommand (path : List String)
  | protectedCommand (path : List String)
  | nameError

/-- Tests for the `protectedCommand` outcome. -/
def GetResult.isProtectedCmd : GetResult → Bool
  | .protectedCommand _ => true
  | _ => false

/-- The `while command_parts:` loop of `CommandHandler.get`.
`p` is the cursor, `parts` the remaining `command_parts`, `full` the
`in_command_parts` of the *current* `get` invocation (what errors carry).
The delegation `return f.get(command_parts)` re-enters with
`full := rest`, because the inner call's `in_command_parts` is just the
remaining suffix. The `[]` case models `return f` with `f` unbound. -/
def getAux : Obj → List String → List String → GetResult
  | _, [], _ => .nameError
  | p, cmd :: rest, full =>
    if pyStartsWith cmd "_" then .protectedCommand full
    else
      match getattrOpt p cmd with
      | none => .noSuchCommand full
      | some f =>
        if f.prot then .protectedCommand full
        else if f.isHandler && !rest.isEmpty then getAux f rest rest
        else if rest.isEmpty then .ok f
        else getAux f rest full

/-- The `CommandHandler.get` entry on an already-split sequence (the `else` branch of
the input normalization: the list is used as-is). -/
def CommandHandler.getList (self : Obj) (parts : List String) : GetResult :=
  getAux self parts parts

/-- The `CommandHandler.get` entry on a single string: the input is split on `'.'`
and then resolved. -/
def CommandHandler.get (self : Obj) (command : String) : GetResult :=
  CommandHandler.getList self (pySplitDot command)

/-- Errors that can escape `CommandHandler.run`: `ProtectedCommandError`
from resolution (uncaught there), the wrapping `CommandError(command)` raised
when the awaited body throws, and the unguarded `NameError` from `get`.
`NoSuchCommandError` never escapes `run`. In the oyoyo error hierarchy
(imported from `oyoyo.cmdhandler`, not present in these sources),
`ProtectedCommandError` and `NoSuchCommandError` are `CommandError`
subclasses; `NameError` is not. -/
inductive RunError where
  | protectedCommand (path : List String)
  | commandFailed (name : String)
  | nameError
deriving DecidableEq

/-- Observable outcome of `CommandHandler.run`: the exception it re-raises,
if any, and the `(cmd, args)` passed to `self.__unhandled__` when resolution
raised `NoSuchCommandError`. -/
structure RunResult where
  error : Option RunError
  unhandled : Option (String × List String)
deriving DecidableEq

/-- Model of `CommandHandler.run`: resolve `command` via `get`; on
`NoSuchCommandError` call `__unhandled__(command, *args)` and return; then
await the resolved callable, and wrap any exception from the body into
`CommandError(command)`. A `ProtectedCommandError` (or `NameError`) raised
by `get` is not caught and propagates as-is. Whether the awaited body
raises is the callable's `fails` flag. -/
def CommandHandler.run (self : Obj) (command : String) (args : List String) :
    RunResult :=
  match CommandHandler.get self command with
  | .noSuchCommand _ => { error := none, unhandled := some (command, args) }
  | .protectedCommand q =>
      { error := some (.protectedCommand q), unhandled := none }
  | .nameError => { error := some .nameError, unhandled := none }
  | .ok f =>
      if f.fails then
        { error := some (.commandFailed command), unhandled := none }
      else
        { error := none, unhandled := none }

/-- The membership predicate of `getVisibleCommands`:
`isinstance(x, CommandHandler) or inspect.ismethod(x) or
inspect.isfunction(x)`. -/
def visibleTest (x : Obj) : Bool :=
  x.isHandler || x.isCallable

/-- Lexicographic code-point comparison on character lists, as Python
compares strings and as `inspect.getmembers` sorts member names. -/
def lexLe : List Char → List Char → Bool
  | [], _ => true
  | _ :: _, [] => false
  | a :: as, b :: bs =>
    if a.val < b.val then true
    else if b.val < a.val then false
    else lexLe as bs

def insertByName (x : String × Obj) :
    List (String × Obj) → List (String × Obj)
  | [] => [x]
  | y :: ys =>
    if lexLe x.1.data y.1.data then x :: y :: ys else y :: insertByName x ys

/-- Name-sorted member list, as returned by `inspect.getmembers`. -/
def sortMembers : List (String × Obj) → List (String × Obj)
  | [] => []
  | x :: xs => insertByName x (sortMembers xs)

/-- Outcome of `getVisibleCommands`: either the returned name list, or the
`AttributeError` escaping from `getattr(obj, m)` inside the list
comprehension, carrying the name being looked up when it was raised. -/
inductive VisibleResult where
  | ok (names : List String)
  | attributeError (name : String)
deriving DecidableEq

/-- The list comprehension of `getVisibleCommands`, evaluated left to right
over the sorted members. `obj` is the *parameter* `obj` (possibly `None`),
exactly as the source writes `getattr(obj, m)`: when `obj` is `None`,
`getattr(None, m)` raises `AttributeError` for every non-underscore member
name (`None` has no non-underscore attributes). -/
def visibleGo (obj : Option Obj) : List (String × Obj) → VisibleResult
  | [] => .ok []
  | (m, _) :: rest =>
    if pyStartsWith m "_" then visibleGo obj rest
    else
      match obj with
      | none => .attributeError m
      | some o =>
        match getattrOpt o m with
        | none => .attributeError m
        | some f =>
          if f.prot then visibleGo obj rest
          else
            match visibleGo obj rest with
            | .ok ns => .ok (m :: ns)
            | e => e

/-- Model of `DefaultBotCommandHandler.getVisibleCommands(obj=None)`: members of
`obj or self` passing `visibleTest`, sorted by name as `inspect.getmembers`
returns them, then filtered by the comprehension — which reads
`getattr(obj, m)`, not `getattr(obj or self, m)`. -/
def getVisibleCommands (self : Obj) (obj : Option Obj) : VisibleResult :=
  let target := obj.getD self
  visibleGo obj (sortMembers (target.attrs.filter (fun p => visibleTest p.2)))

/-- Modelled from the spec: `parse_nick` comes from `oyoyo.parse`, which is
not among these sources. Per the spec, replies to a direct message are
redirected to "the sender's nick, extracted from the prefix's user-mask
portion before `!`"; `parse_nick(prefix)[0]` is that nick. -/
def parseNick (pfx : String) : String :=
  ⟨pfx.data.takeWhile (fun c => c ≠ '!')⟩

/-- Modelled from the spec: `CommandError.__str__` lives in
`oyoyo.cmdhandler`, which is not among these sources. The spec gives the
surfaced texts `"<path> is protected"` and `"Command <name> failed"`
(taxonomy fixed, exact wording an implementation choice); a `NameError` is
not a `CommandError` and has no chat rendering. -/
def renderError : RunError → String
  | .protectedCommand q => String.intercalate "." q ++ " is protected"
  | .commandFailed n => "Command " ++ n ++ " failed"
  | .nameError => "NameError"

/-- Observable outcome of `BotCommandHandler.tryBotCommand`: the returned
bool, the `(destination, text)` messages sent through `helpers.msg`, the
`(command, args)` with which `command_handler.run` was awaited (if reached),
and any exception not caught by `except CommandError` (the `NameError`
case). -/
structure TryResult where
  matched : Bool
  sent : List (String × String)
  dispatched : Option (String × List String)
  uncaught : Option RunError
deriving DecidableEq

/-- The tail of `tryBotCommand` after the addressing branches: strip the
message, split off the command word (`msg.split(' ', 1)`), await
`command_handler.run(command, prefix, dest, *arg)`, and on a caught
`CommandError` send its rendering to `dest`; always return `True`.
A `NameError` from `run` would not be caught by `except CommandError`. -/
def tryBotGo (tree : Obj) (pfx dest msg : String) : TryResult :=
  let parts := pySplitMax1 (pyStrip msg)
  let command := parts.headD ""
  let args := pfx :: dest :: parts.tail
  let r := CommandHandler.run tree command args
  match r.error with
  | none => { matched := true, sent := [], dispatched := some (command, args),
              uncaught := none }
  | some .nameError =>
      { matched := true, sent := [], dispatched := some (command, args),
        uncaught := some .nameError }
  | some e =>
      { matched := true, sent := [(dest, renderError e)],
        dispatched := some (command, args), uncaught := none }

/-- Model of `BotCommandHandler.tryBotCommand(prefix, dest, msg)`: if `dest` is the
client's nick, retarget `dest` to the sender's nick from the prefix; else if
`msg` starts with the nick, drop `len(nick) + 1` leading characters; else
return `False` with no further action. -/
def tryBotCommand (tree : Obj) (nick pfx dest msg : String) : TryResult :=
  if dest == nick then
    tryBotGo tree pfx (parseNick pfx) msg
  else if pyStartsWith msg nick then
    tryBotGo tree pfx dest (pyDrop msg (nick.length + 1))
  else
    { matched := false, sent := [], dispatched := none, uncaught := none }

/-- Direct nested-attribute read: `getattr(getattr(root, s₁), s₂) …` along
the path, `none` as soon as a segment is absent. -/
def attrChain (p : Obj) : List String → Option Obj
  | [] => some p
  | s :: rest =>
    match getattrOpt p s with
    | none => none
    | some f => attrChain f rest

/-- A path is clean for resolution from `p`: every segment avoids the
leading underscore, resolves via `getattr`, and the resolved member does not
carry the `protected` marker. -/
def okPathB (p : Obj) : List String → Bool
  | [] => true
  | s :: rest =>
    !pyStartsWith s "_" &&
      (match getattrOpt p s with
       | none => false
       | some f => !f.prot && okPathB f rest)

/-! Concrete fixtures used to instantiate the theorems. -/

/-- A `CommandHandler` with no commands at all. -/
def emptyHandler : Obj := .mk true false false false []

/-- A root handler whose `admin` attribute is a sub-`CommandHandler` with no
members — in particular no `kick`. -/
def adminTree : Obj := .mk true false false false [("admin", .mk true false false false [])]

/-- A command whose body raises when awaited. -/
def failLeaf : Obj := .mk false false true true []

/-- A root handler exposing the failing command under the name `boom`. -/
def failTree : Obj := .mk true false false false [("boom", failLeaf)]

/-- A well-behaved leaf command. -/
def kickLeaf : Obj := .mk false false true false []

/-- A root handler with a clean two-level path `admin.kick`, plus a
protected member `admin._kick`-adjacent fixture for the underscore rule. -/
def vTree : Obj :=
  .mk true false false false [("admin", .mk true false false false [("kick", kickLeaf)])]

/-- A bound method of the handler: callable, possibly `protected`. -/
def mkMethod (p : Bool) : Obj := .mk false p true false []

/-- A bare `DefaultBotCommandHandler` instance as `inspect` sees it: the
bound methods `get`, `run`, `getVisibleCommands`, `__unhandled__` (all
decorated `protected`), `help` and `__init__` (not decorated), and the
non-callable `client` attribute. -/
def defaultBotNode : Obj := .mk true false false false
  [("run", mkMethod true), ("get", mkMethod true), ("help", mkMethod false),
   ("getVisibleCommands", mkMethod true), ("__init__", mkMethod false),
   ("__unhandled__", mkMethod true), ("client", .mk false false false false [])]

/-! Theorems. -/

/-- C1, counterexample: resolving `"admin.kick"` where `admin` is a
sub-handler lacking `kick` raises `NoSuchCommandError(["kick"])` — the
delegated call's own `in_command_parts` — not the full attempted path
`["admin", "kick"]` the claim promises. -/
theorem get_delegated_error_path_counterexample :
    CommandHandler.get adminTree "admin.kick" = .noSuchCommand ["kick"] ∧
      GetResult.noSuchCommand ["kick"] ≠ GetResult.noSuchCommand ["admin", "kick"] :=
  ⟨rfl, by simp⟩

/-- The path carried by a raised `NoSuchCommandError` or
`ProtectedCommandError`, if `get` raised one. -/
def GetResult.errPath : GetResult → Option (List String)
  | .noSuchCommand q => some q
  | .protectedCommand q => some q
  | .ok _ => none
  | .nameError => none

/-- Helper for the amended C1: along the loop, any error raised carries a
suffix of the `full` path the current `get` invocation was given, and
delegation replaces `full` by the remaining suffix, itself a suffix. -/
theorem getAux_errPath_suffix :
    ∀ (parts : List String) (p : Obj) (full q : List String),
      parts.IsSuffix full →
      (getAux p parts full).errPath = some q →
      q.IsSuffix full := by
  intro parts
  induction parts with
  | nil =>
    intro p full q _ h
    simp [getAux, GetResult.errPath] at h
  | cons s rest ih =>
    intro p full q hsuf h
    have hrs : rest.IsSuffix full := (List.suffix_cons s rest).trans hsuf
    simp only [getAux] at h
    split at h
    · simp only [GetResult.errPath, Option.some.injEq] at h
      subst h
      exact List.suffix_refl _
    · split at h
      · simp only [GetResult.errPath, Option.some.injEq] at h
        subst h
        exact List.suffix_refl _
      · split at h
        · simp only [GetResult.errPath, Option.some.injEq] at h
          subst h
          exact List.suffix_refl _
        · split at h
          · exact (ih _ _ _ (List.suffix_refl rest) h).trans hrs
          · split at h
            · simp [GetResult.errPath] at h
            · exact ih _ _ _ hrs h

/-- C1, amended: an error raised by `get` on a pre-split path carries a
suffix of the attempted path — the full path while no delegation into a
sub-handler has happened, and only the remaining segments afterwards. -/
theorem get_error_path_is_suffix (root : Obj) (path q : List String)
    (h : CommandHandler.getList root path = .noSuchCommand q ∨
         CommandHandler.getList root path = .protectedCommand q) :
    q.IsSuffix path := by
  rcases h with h | h
  · exact getAux_errPath_suffix path root path q (List.suffix_refl path)
      (by rw [CommandHandler.getList] at h; rw [h]; rfl)
  · exact getAux_errPath_suffix path root path q (List.suffix_refl path)
      (by rw [CommandHandler.getList] at h; rw [h]; rfl)

/-- Witness for `get_error_path_is_suffix` at a concrete failing path. -/
theorem get_error_path_is_suffix_witness :
    CommandHandler.getList emptyHandler ["a", "cmd"] = .noSuchCommand ["a", "cmd"] ∧
      List.IsSuffix ["a", "cmd"] ["a", "cmd"] :=
  ⟨rfl, get_error_path_is_suffix emptyHandler ["a", "cmd"] ["a", "cmd"] (Or.inl rfl)⟩

/-- C2: `getVisibleCommands()` with the argument left at its `None` default
does not return the receiver's visible member list: the comprehension
evaluates `getattr(obj, m)` with `obj = None` and crashes with an
`AttributeError` at the first non-underscore member name (`"get"`), even
though the members were correctly enumerated from `obj or self`. -/
theorem getVisibleCommands_default_obj_crashes :
    getVisibleCommands defaultBotNode none = .attributeError "get" := rfl

/-- C3, counterexample: a `ProtectedCommandError` raised during resolution
inside `run` is re-raised as-is, not wrapped into `CommandError` carrying
the attempted command name. -/
theorem run_protected_unwrapped_counterexample :
    (CommandHandler.run emptyHandler "_x" []).error =
        some (.protectedCommand ["_x"]) ∧
      some (RunError.protectedCommand ["_x"]) ≠ some (RunError.commandFailed "_x") :=
  ⟨rfl, by decide⟩

/-- C3, amended: an exception raised by the awaited command body is wrapped
into `CommandError(command)`; a `ProtectedCommandError` raised during
resolution propagates unwrapped. -/
theorem run_failure_wrapping (root : Obj) (command : String) (args : List String) :
    (∀ f, CommandHandler.get root command = .ok f → f.fails = true →
        (CommandHandler.run root command args).error =
          some (.commandFailed command)) ∧
    (∀ q, CommandHandler.get root command = .protectedCommand q →
        (CommandHandler.run root command args).error =
          some (.protectedCommand q)) := by
  constructor
  · intro f hget hfails
    simp [CommandHandler.run, hget, hfails]
  · intro q hget
    simp [CommandHandler.run, hget]

/-- Witness for `run_failure_wrapping`: a command whose body raises is
reported as `CommandError("boom")`. -/
theorem run_failure_wrapping_witness :
    (CommandHandler.run failTree "boom" []).error = some (.commandFailed "boom") :=
  (run_failure_wrapping failTree "boom" []).1 failLeaf rfl rfl

/-- C4: when resolution raises `NoSuchCommandError`, `run` calls
`__unhandled__` with the very same command and arguments and returns
normally — no error reaches the caller. -/
theorem run_noSuchCommand_fallback (root : Obj) (command : String)
    (args : List String) (q : List String)
    (h : CommandHandler.get root command = .noSuchCommand q) :
    CommandHandler.run root command args =
      { error := none, unhandled := some (command, args) } := by
  simp [CommandHandler.run, h]

/-- Witness for `run_noSuchCommand_fallback` on an unknown command. -/
theorem run_noSuchCommand_fallback_witness :
    CommandHandler.run emptyHandler "zzz" ["a"] =
      { error := none, unhandled := some ("zzz", ["a"]) } :=
  run_noSuchCommand_fallback emptyHandler "zzz" ["a"] ["zzz"] rfl

/-- Helper for C5: on a clean nonempty path the loop returns exactly the
value of the nested attribute chain, whatever `full` path the invocation was
given. -/
theorem getAux_okPath :
    ∀ (path : List String) (root : Obj), path ≠ [] → okPathB root path = true →
      ∃ v, attrChain root path = some v ∧ ∀ full, getAux root path full = .ok v := by
  intro path
  induction path with
  | nil => intro root h _; exact absurd rfl h
  | cons s rest ih =>
    intro root _ hok
    simp only [okPathB, Bool.and_eq_true, Bool.not_eq_true'] at hok
    obtain ⟨hus, hmatch⟩ := hok
    cases hf : getattrOpt root s with
    | none => rw [hf] at hmatch; simp at hmatch
    | some f =>
      rw [hf] at hmatch
      simp only [Bool.and_eq_true, Bool.not_eq_true'] at hmatch
      obtain ⟨hp, hrest⟩ := hmatch
      cases rest with
      | nil =>
        refine ⟨f, by simp [attrChain, hf], ?_⟩
        intro full
        simp [getAux, hus, hf, hp]
      | cons t ts =>
        obtain ⟨v, hchain, hall⟩ := ih f (by simp) hrest
        refine ⟨v, ?_, ?_⟩
        · have hstep : attrChain root (s :: t :: ts) = attrChain f (t :: ts) := by
            simp [attrChain, hf]
          rw [hstep, hchain]
        · intro full
          cases hh : f.isHandler with
          | true =>
            have hstep : getAux root (s :: t :: ts) full = getAux f (t :: ts) (t :: ts) := by
              simp [getAux, hus, hf, hp, hh]
            rw [hstep, hall]
          | false =>
            have hstep : getAux root (s :: t :: ts) full = getAux f (t :: ts) full := by
              simp [getAux, hus, hf, hp, hh]
            rw [hstep, hall]

/-- C5: a nonempty command path all of whose segments are non-underscore,
resolvable, and unprotected is resolved by `get` to exactly the value read
by the nested `getattr` chain from the root. -/
theorem getList_eq_attrChain (root : Obj) (path : List String)
    (hne : path ≠ []) (hok : okPathB root path = true) :
    ∃ v, attrChain root path = some v ∧
      CommandHandler.getList root path = .ok v := by
  obtain ⟨v, h1, h2⟩ := getAux_okPath path root hne hok
  exact ⟨v, h1, h2 path⟩

/-- Witness for `getList_eq_attrChain` on the two-level path
`admin.kick`. -/
theorem getList_eq_attrChain_witness :
    (["admin", "kick"] ≠ ([] : List String) ∧
        okPathB vTree ["admin", "kick"] = true) ∧
      ∃ v, attrChain vTree ["admin", "kick"] = some v ∧
        CommandHandler.getList vTree ["admin", "kick"] = .ok v :=
  ⟨⟨by decide, rfl⟩, getList_eq_attrChain vTree ["admin", "kick"] (by decide) rfl⟩

/-- C6, counterexample: in `["a", "_b"]` the segment `"_b"` starts with an
underscore, yet `get` on a handler lacking `a` raises `NoSuchCommandError`,
not `ProtectedCommandError` — the earlier segment is looked up first. -/
theorem get_underscore_counterexample :
    CommandHandler.getList emptyHandler ["a", "_b"] = .noSuchCommand ["a", "_b"] ∧
      pyStartsWith "_b" "_" = true ∧
      (GetResult.noSuchCommand ["a", "_b"]).isProtectedCmd = false :=
  ⟨rfl, rfl, rfl⟩

/-- Helper for the amended C6: if every segment before the underscore
segment resolves cleanly, the underscore check fires — before any lookup of
that segment, which need not exist. -/
theorem getAux_underscore :
    ∀ (pre : List String) (root : Obj) (s : String) (post full : List String),
      okPathB root pre = true → pyStartsWith s "_" = true →
      ∃ q, getAux root (pre ++ s :: post) full = .protectedCommand q := by
  intro pre
  induction pre with
  | nil =>
    intro root s post full _ hs
    exact ⟨full, by simp [getAux, hs]⟩
  | cons t pre ih =>
    intro root s post full hok hs
    simp only [okPathB, Bool.and_eq_true, Bool.not_eq_true'] at hok
    obtain ⟨ht, hmatch⟩ := hok
    cases hf : getattrOpt root t with
    | none => rw [hf] at hmatch; simp at hmatch
    | some f =>
      rw [hf] at hmatch
      simp only [Bool.and_eq_true, Bool.not_eq_true'] at hmatch
      obtain ⟨hp, hpre⟩ := hmatch
      have hne : (pre ++ s :: post).isEmpty = false := by cases pre <;> simp
      cases hh : f.isHandler with
      | true =>
        obtain ⟨q, hq⟩ := ih f s post (pre ++ s :: post) hpre hs
        exact ⟨q, by simp [getAux, ht, hf, hp, hh, hne, hq]⟩
      | false =>
        obtain ⟨q, hq⟩ := ih f s post full hpre hs
        exact ⟨q, by simp [getAux, ht, hf, hp, hh, hne, hq]⟩

/-- C6, amended: if every segment *before* the first underscore-prefixed
segment resolves to an unprotected member, `get` raises
`ProtectedCommandError`, whether or not an attribute named by the underscore
segment exists; an earlier segment that fails to resolve preempts this with
`NoSuchCommandError` instead. -/
theorem get_underscore_protected (root : Obj) (pre : List String) (s : String)
    (post : List String) (hok : okPathB root pre = true)
    (hs : pyStartsWith s "_" = true) :
    ∃ q, CommandHandler.getList root (pre ++ s :: post) = .protectedCommand q :=
  getAux_underscore pre root s post (pre ++ s :: post) hok hs

/-- Witness for `get_underscore_protected`: `admin._kick` is rejected as
protected even though `admin` has no `_kick` attribute. -/
theorem get_underscore_protected_witness :
    (okPathB vTree ["admin"] = true ∧ pyStartsWith "_kick" "_" = true) ∧
      ∃ q, CommandHandler.getList vTree ["admin", "_kick"] = .protectedCommand q :=
  ⟨⟨rfl, rfl⟩, get_underscore_protected vTree ["admin"] "_kick" [] rfl rfl⟩

/-- C7: on a message recognized as a bot command (either addressing form),
when `command_handler.run` raises `CommandError` for the dispatched command,
`tryBotCommand` sends the rendered error text to the reply destination via
`helpers.msg`, swallows the exception, and still returns `True`. -/
theorem tryBotCommand_reports_commandFailed (tree : Obj)
    (nick pfx dest msg rd line : String)
    (hrec : (dest = nick ∧ rd = parseNick pfx ∧ line = msg) ∨
            ((dest == nick) = false ∧ pyStartsWith msg nick = true ∧
             rd = dest ∧ line = pyDrop msg (nick.length + 1)))
    (hfail : (CommandHandler.run tree ((pySplitMax1 (pyStrip line)).headD "")
        (pfx :: rd :: (pySplitMax1 (pyStrip line)).tail)).error =
        some (.commandFailed ((pySplitMax1 (pyStrip line)).headD ""))) :
    tryBotCommand tree nick pfx dest msg =
      { matched := true,
        sent := [(rd, renderError
          (.commandFailed ((pySplitMax1 (pyStrip line)).headD "")))],
        dispatched := some ((pySplitMax1 (pyStrip line)).headD "",
          pfx :: rd :: (pySplitMax1 (pyStrip line)).tail),
        uncaught := none } := by
  rcases hrec with ⟨h1, h2, h3⟩ | ⟨h1, h2, h3, h4⟩
  · subst h1; subst h2; subst h3
    simp only [tryBotCommand, beq_self_eq_true, if_true, tryBotGo]
    rw [hfail]
  · subst h3; subst h4
    simp only [tryBotCommand, h1, h2, Bool.false_eq_true, if_false, if_true,
      tryBotGo]
    rw [hfail]

/-- Witness for `tryBotCommand_reports_commandFailed`: a failing `boom`
command addressed in channel form is reported to the channel and the router
still reports a match. -/
theorem tryBotCommand_reports_commandFailed_witness :
    tryBotCommand failTree "bot" "alice!u@h" "#c" "bot boom now" =
      { matched := true, sent := [("#c", "Command boom failed")],
        dispatched := some ("boom", ["alice!u@h", "#c", "now"]),
        uncaught := none } :=
  tryBotCommand_reports_commandFailed failTree "bot" "alice!u@h" "#c"
    "bot boom now" "#c" "boom now" (Or.inr ⟨rfl, rfl, rfl, rfl⟩) rfl

/-- C8: a message whose destination is not the client's nick and whose text
does not start with the nick is not a bot command: `tryBotCommand` returns
`False` having dispatched nothing and sent nothing. -/
theorem tryBotCommand_unaddressed_noop (tree : Obj) (nick pfx dest msg : String)
    (h1 : (dest == nick) = false) (h2 : pyStartsWith msg nick = false) :
    tryBotCommand tree nick pfx dest msg =
      { matched := false, sent := [], dispatched := none, uncaught := none } := by
  simp [tryBotCommand, h1, h2]

/-- Witness for `tryBotCommand_unaddressed_noop` on a plain channel
message. -/
theorem tryBotCommand_unaddressed_noop_witness :
    tryBotCommand emptyHandler "bot" "alice!u@h" "#chan" "hello there" =
      { matched := false, sent := [], dispatched := none, uncaught := none } :=
  tryBotCommand_unaddressed_noop emptyHandler "bot" "alice!u@h" "#chan"
    "hello there" rfl rfl

/-- C9: `get` on the empty pre-split sequence skips the loop entirely and
hits `return f` with `f` never bound: the outcome is the unguarded
`NameError`, not any of `NoSuchCommandError` / `ProtectedCommandError` /
`CommandError`. -/
theorem getList_empty_nameError (root : Obj) :
    CommandHandler.getList root [] = .nameError := rfl

/-- C10: with nick `bot`, the channel message `botsrule now` — where the
nick is a mere character prefix with no delimiter — is still treated as a
bot command: `len(nick) + 1` characters are dropped, the first remaining
word `rule` is dispatched, and the router returns `True`. -/
theorem tryBotCommand_nick_prefix_no_delimiter :
    tryBotCommand emptyHandler "bot" "alice!u@h" "#chan" "botsrule now" =
      { matched := true, sent := [],
        dispatched := some ("rule", ["alice!u@h", "#chan", "now"]),
        uncaught := none } := rfl

end Aioyoyo
